import Mathlib

/-!
Shallow embedding of the query-construction core, the authorization middleware and the
model-layer filter builders of the Jobly backend, together with proofs of the spec's
claims about them.

Sources embedded:
  - helpers/sql.js            : sqlForPartialUpdate
  - models/company.js         : Company.findAll (validation, inline filter builder, query assembly)
  - models/job.js (revision A): Job.findAll with inline filters
  - models/job.js (revision B): Job.searchAll (equity flag handling, delete, query assembly)
  - middleware/auth.js        : ensureAdmin, ensureAdminOrSelf

JavaScript objects are embedded as insertion-ordered association lists; JS scalar values as
the inductive `Value`; thrown errors as `Except JoblyError`; middleware outcomes as
`Option JoblyError` (the argument passed to `next`).  Multi-line SQL template literals are
embedded with their whitespace normalized to single spaces.
-/

/-- A JS scalar value as it occurs in change sets and filter specs. -/
inductive Value where
  | vStr : String → Value
  | vInt : Int → Value
  | vBool : Bool → Value
  | vNull : Value
  deriving DecidableEq, Repr

/-- The error classes of expressError.js that the embedded code signals. -/
inductive JoblyError where
  | badRequest : String → JoblyError
  | notFound : String → JoblyError
  | unauthorized : JoblyError
  | forbidden : JoblyError
  deriving DecidableEq, Repr

/-- JS property read `obj[key]`: first binding of the key, `none` for `undefined`. -/
def alookup {α : Type} : List (String × α) → String → Option α
  | [], _ => none
  | (k, v) :: rest, key => if k = key then some v else alookup rest key

/-- JS truthiness of an optionally-present value: `undefined`, `null`, `false`, `0` and
the empty string are falsy, everything else is truthy. -/
def truthyV : Option Value → Bool
  | none => false
  | some (Value.vStr s) => s != ""
  | some (Value.vInt n) => n != 0
  | some (Value.vBool b) => b
  | some Value.vNull => false

/-- JS truthiness of an optionally-present string (`if (name)` on a destructured field):
truthy exactly when present and non-empty. -/
def nameTruthy : Option String → Bool
  | none => false
  | some s => s != ""

/-- helpers/sql.js line 37: the column name of an assignment token,
`jsToSql[colName] || colName`.  The field maps of this repository are string-valued, so the
only falsy mapped value is the empty string; an absent key reads as `undefined` (falsy). -/
def resolveCol (jsToSql : List (String × String)) (colName : String) : String :=
  match alookup jsToSql colName with
  | some s => if s = "" then colName else s
  | none => colName

/-- helpers/sql.js `sqlForPartialUpdate(dataToUpdate, jsToSql)`: throws
BadRequestError("No data") on an empty change set, otherwise maps the keys (insertion
order) to tokens `"col"=$(idx+1)` and returns them comma-joined together with
`Object.values(dataToUpdate)`. -/
def sqlForPartialUpdate (dataToUpdate : List (String × Value))
    (jsToSql : List (String × String)) : Except JoblyError (String × List Value) :=
  let keys := dataToUpdate.map Prod.fst
  if keys.length = 0 then
    Except.error (JoblyError.badRequest "No data")
  else
    let cols := keys.enum.map
      (fun p => "\"" ++ resolveCol jsToSql p.2 ++ "\"=$" ++ toString (p.1 + 1))
    Except.ok (String.intercalate ", " cols, dataToUpdate.map Prod.snd)

/-! ## Company.findAll (models/company.js) -/

/-- The filter/parameter accumulation of Company.findAll: for each present criterion push
the parameter, then push the predicate text carrying placeholder index
`parameters.length` (the length after the push).  `minEmployees`/`maxEmployees` are
checked against `undefined`; `name` is checked for truthiness (`if (name)`), so a present
empty string adds nothing. -/
def companyFilterList (minEmployees maxEmployees : Option Int) (name : Option String) :
    List String × List Value :=
  let fp0 : List String × List Value := ([], [])
  let fp1 :=
    match minEmployees with
    | some m =>
        let ps := fp0.2 ++ [Value.vInt m]
        (fp0.1 ++ ["num_employees >= $" ++ toString ps.length], ps)
    | none => fp0
  let fp2 :=
    match maxEmployees with
    | some m =>
        let ps := fp1.2 ++ [Value.vInt m]
        (fp1.1 ++ ["num_employees <= $" ++ toString ps.length], ps)
    | none => fp1
  match name with
  | some s =>
      if s = "" then fp2
      else
        let ps := fp2.2 ++ [Value.vStr ("%" ++ s ++ "%")]
        (fp2.1 ++ ["name ILIKE $" ++ toString ps.length], ps)
  | none => fp2

/-- The SELECT head of Company.findAll (whitespace normalized to single spaces). -/
def companyBaseQuery : String :=
  "SELECT handle, name, description, num_employees AS \"numEmployees\", logo_url AS \"logoUrl\" FROM companies"

/-- models/company.js `Company.findAll(searchCriteria)` up to the database call: validates
the employee range (BadRequestError when both bounds are present and min > max), builds the
filter list, appends ` WHERE <filters joined by AND>` only when at least one filter was
emitted, and finally appends ` ORDER BY name`.  Returns the query text and parameters. -/
def companyFindAll (minEmployees maxEmployees : Option Int) (name : Option String) :
    Except JoblyError (String × List Value) :=
  let badRange :=
    match minEmployees, maxEmployees with
    | some mn, some mx => decide (mn > mx)
    | _, _ => false
  if badRange then
    Except.error (JoblyError.badRequest "Minimum employees cannot exceed maximum employees")
  else
    let r := companyFilterList minEmployees maxEmployees name
    let q := companyBaseQuery
    let q := if r.1.length > 0 then q ++ " WHERE " ++ String.intercalate " AND " r.1 else q
    Except.ok (q ++ " ORDER BY name", r.2)

/-! ## Job.findAll (models/job.js, revision with inline filters) -/

/-- The condition/value accumulation of Job.findAll: `minSalary` checked against
`undefined`, `hasEquity` by truthiness emitting the literal `equity > 0` with no
parameter, `title` by truthiness with a wildcard-wrapped parameter. -/
def jobFilterList (minSalary : Option Int) (hasEquity : Bool) (title : Option String) :
    List String × List Value :=
  let fp0 : List String × List Value := ([], [])
  let fp1 :=
    match minSalary with
    | some m =>
        let ps := fp0.2 ++ [Value.vInt m]
        (fp0.1 ++ ["salary >= $" ++ toString ps.length], ps)
    | none => fp0
  let fp2 := if hasEquity then (fp1.1 ++ ["equity > 0"], fp1.2) else fp1
  match title with
  | some s =>
      if s = "" then fp2
      else
        let ps := fp2.2 ++ [Value.vStr ("%" ++ s ++ "%")]
        (fp2.1 ++ ["title ILIKE $" ++ toString ps.length], ps)
  | none => fp2

/-- The SELECT head of Job.findAll (whitespace normalized to single spaces). -/
def jobBaseQuery : String :=
  "SELECT j.id, j.title, j.salary, j.equity, j.company_handle AS \"companyHandle\", c.name AS \"companyName\" FROM jobs j LEFT JOIN companies AS c ON c.handle = j.company_handle"

/-- models/job.js `Job.findAll(filters)` up to the database call: builds the conditions,
appends ` WHERE <conditions joined by AND>` only when some condition exists, then
` ORDER BY title`. -/
def jobFindAll (minSalary : Option Int) (hasEquity : Bool) (title : Option String) :
    String × List Value :=
  let r := jobFilterList minSalary hasEquity title
  let q := jobBaseQuery
  let q := if r.1.length ≠ 0 then q ++ " WHERE " ++ String.intercalate " AND " r.1 else q
  (q ++ " ORDER BY title", r.2)

/-! ## Raw filter-spec entry points (destructuring of the caller's object) -/

/-- Destructured numeric field: present only when the property holds a number. -/
def asIntV : Option Value → Option Int
  | some (Value.vInt n) => some n
  | _ => none

/-- Destructured string field: present only when the property holds a string. -/
def asStrV : Option Value → Option String
  | some (Value.vStr s) => some s
  | _ => none

/-- Company.findAll on the raw searchCriteria object: the function destructures exactly
the three declared keys (`const { minEmployees, maxEmployees, name } = searchCriteria`)
and never iterates the object itself.  Per spec section 6 the caller supplies an
already-validated FilterSpec, so declared numeric fields hold numbers and string fields
hold strings. -/
def companyFindAllSpec (spec : List (String × Value)) : Except JoblyError (String × List Value) :=
  companyFindAll (asIntV (alookup spec "minEmployees")) (asIntV (alookup spec "maxEmployees"))
    (asStrV (alookup spec "name"))

/-- Job.findAll on the raw filters object (`const { minSalary, hasEquity, title } =
filters`), likewise independent of the object's iteration order. -/
def jobFindAllSpec (spec : List (String × Value)) : String × List Value :=
  jobFindAll (asIntV (alookup spec "minSalary")) (truthyV (alookup spec "hasEquity"))
    (asStrV (alookup spec "title"))

/-! ## Job.searchAll (models/job.js, revision using sqlForQuery) -/

/-- A rule-table entry as passed by Job.searchAll: column name and SQL operator. -/
structure FilterRule where
  colname : String
  operator : String
  deriving DecidableEq, Repr

/-- Wildcard wrapping of a contains-style filter value. -/
def wildcardWrap : Value → Value
  | Value.vStr s => Value.vStr ("%" ++ s ++ "%")
  | v => v

/-- Modelled from the spec: the helper `sqlForQuery` that models/job.js imports from
../helpers/sql is not present under src/ (helpers/sql.js defines only sqlForPartialUpdate).
Following spec section 4.2 (FilterQueryBuilder): iterate the rule table in its fixed
declared order; for each declared filter name present in the filter spec, a contains-style
rule (operator ILIKE) wraps the value in wildcard markers before pushing it, any other rule
pushes the raw value; each emitted predicate is `column operator $n` with `n` the position
of the pushed parameter; the clause is the predicates joined with AND. -/
def sqlForQuery (fields : List (String × Value)) (ruleTable : List (String × FilterRule)) :
    String × List Value :=
  let r := ruleTable.foldl
    (fun (acc : List String × List Value) entry =>
      match alookup fields entry.1 with
      | some v =>
          let pushed := acc.2 ++ [if entry.2.operator = "ILIKE" then wildcardWrap v else v]
          (acc.1 ++ [entry.2.colname ++ " " ++ entry.2.operator ++ " $" ++ toString pushed.length],
           pushed)
      | none => acc)
    ([], [])
  (String.intercalate " AND " r.1, r.2)

/-- models/job.js `Job.searchAll(fields)` up to the database call.  Reads the truthiness
of `fields.hasEquity`, then unconditionally executes `delete fields.hasEquity`; if the
remaining object is empty the final clause is `equityClause || ""` with no values,
otherwise it is sqlForQuery's clause, with ` AND equity > 0` appended when the equity flag
was truthy.  The query text interpolates the final clause after `WHERE` unconditionally.
Returns the mutated fields object together with the query text and values. -/
def jobSearchAll (fields : List (String × Value)) :
    List (String × Value) × (String × List Value) :=
  let equityClause : Option String :=
    if truthyV (alookup fields "hasEquity") then some "equity > 0" else none
  let fields := fields.filter (fun kv => kv.1 != "hasEquity")
  let wv :=
    if fields.length = 0 then
      (equityClause.getD "", ([] : List Value))
    else
      let r := sqlForQuery fields
        [("title", ⟨"title", "ILIKE"⟩), ("minSalary", ⟨"salary", ">="⟩)]
      (match equityClause with
       | some c => r.1 ++ " AND " ++ c
       | none => r.1, r.2)
  (fields,
   ("SELECT id, title, salary, equity, company_handle AS \"companyHandle\" FROM jobs WHERE "
      ++ wv.1 ++ " ORDER BY id", wv.2))

/-! ## Authorization middleware (middleware/auth.js) -/

/-- The verified token payload stored on res.locals.user. -/
structure UserClaim where
  username : String
  isAdmin : Bool
  deriving DecidableEq, Repr

/-- middleware/auth.js `ensureAdmin`: `if (!res.locals.user || !res.locals.user.isAdmin)
next(new UnauthorizedError())`, otherwise `next()`.  The result is the error passed to
`next`, or `none` for success. -/
def ensureAdmin (user : Option UserClaim) : Option JoblyError :=
  match user with
  | none => some JoblyError.unauthorized
  | some u => if u.isAdmin then none else some JoblyError.unauthorized

/-- middleware/auth.js `ensureAdminOrSelf`: no user throws UnauthorizedError; a logged-in
user who is neither an admin nor the user named by `req.params.username` throws
ForbiddenError; otherwise `next()`. -/
def ensureAdminOrSelf (user : Option UserClaim) (target : String) : Option JoblyError :=
  match user with
  | none => some JoblyError.unauthorized
  | some u =>
      if !u.isAdmin && u.username != target then some JoblyError.forbidden else none

/-! ## Update execution (storage collaborator) -/

/-- One SQL assignment `col = value` applied to a stored row: rewrites every column of
that name, touches nothing else. -/
def setColumn (row : List (String × Value)) (c : String) (v : Value) :
    List (String × Value) :=
  row.map (fun kv => if kv.1 = c then (kv.1, v) else kv)

/-- Modelled from the spec: execution of the UPDATE statement built from
sqlForPartialUpdate's output by the storage collaborator, which is outside src/ (spec
section 6: the store receives the query text and the ordered parameter list; each
assignment token `"col"=$i` sets column `col` of the matched row to parameter `i`).
Assignments are applied left to right in change-set order. -/
def execPartialUpdate (row : List (String × Value)) (dataToUpdate : List (String × Value))
    (jsToSql : List (String × String)) : List (String × Value) :=
  dataToUpdate.foldl (fun r kv => setColumn r (resolveCol jsToSql kv.1) kv.2) row

/-! ## Spec-side clause description (for the refinement claims)

`Piece` and `renderPieces` follow the spec's words (section 3, Invariants): a clause is a
list of pieces, each either a parameter-carrying predicate (whose text is a function of the
placeholder index it will receive) or a literal boolean predicate carrying no parameter;
rendering assigns placeholder indices contiguously, increasing by one at each
parameter-carrying piece, starting at the offset plus one. -/

/-- One emitted predicate: either text depending only on its placeholder index together
with the parameter it pushes, or a literal predicate with no parameter. -/
inductive Piece where
  | withParam : (Nat → String) → Value → Piece
  | literal : String → Piece

/-- Render a piece list, assigning placeholder indices off+1, off+2, ... to the
parameter-carrying pieces in order. -/
def renderPieces : List Piece → Nat → List String × List Value
  | [], _ => ([], [])
  | Piece.withParam f v :: rest, off =>
      let r := renderPieces rest (off + 1)
      (f (off + 1) :: r.1, v :: r.2)
  | Piece.literal s :: rest, off =>
      let r := renderPieces rest off
      (s :: r.1, r.2)

/-- Number of parameter-carrying pieces, i.e. of placeholder tokens. -/
def countParams : List Piece → Nat
  | [] => 0
  | Piece.withParam _ _ :: rest => countParams rest + 1
  | Piece.literal _ :: rest => countParams rest

/-- The placeholder indices assigned by `renderPieces` in emission order. -/
def piecesIndices : List Piece → Nat → List Nat
  | [], _ => []
  | Piece.withParam _ _ :: rest, off => (off + 1) :: piecesIndices rest (off + 1)
  | Piece.literal _ :: rest, off => piecesIndices rest off

/-- The piece list of sqlForPartialUpdate: one parameter-carrying assignment token per
change-set entry, in insertion order. -/
def updatePieces (jsToSql : List (String × String)) (dataToUpdate : List (String × Value)) :
    List Piece :=
  dataToUpdate.map (fun kv =>
    Piece.withParam (fun i => "\"" ++ resolveCol jsToSql kv.1 ++ "\"=$" ++ toString i) kv.2)

/-- The piece list of Company.findAll's filter builder. -/
def companyPieces (minEmployees maxEmployees : Option Int) (name : Option String) :
    List Piece :=
  (match minEmployees with
   | some m => [Piece.withParam (fun i => "num_employees >= $" ++ toString i) (Value.vInt m)]
   | none => []) ++
  (match maxEmployees with
   | some m => [Piece.withParam (fun i => "num_employees <= $" ++ toString i) (Value.vInt m)]
   | none => []) ++
  (match name with
   | some s =>
       if s = "" then []
       else [Piece.withParam (fun i => "name ILIKE $" ++ toString i)
               (Value.vStr ("%" ++ s ++ "%"))]
   | none => [])

/-- The piece list of Job.findAll's filter builder; the equity flag is a literal piece. -/
def jobPieces (minSalary : Option Int) (hasEquity : Bool) (title : Option String) :
    List Piece :=
  (match minSalary with
   | some m => [Piece.withParam (fun i => "salary >= $" ++ toString i) (Value.vInt m)]
   | none => []) ++
  (if hasEquity then [Piece.literal "equity > 0"] else []) ++
  (match title with
   | some s =>
       if s = "" then []
       else [Piece.withParam (fun i => "title ILIKE $" ++ toString i)
               (Value.vStr ("%" ++ s ++ "%"))]
   | none => [])

/-- The clause texts of Company.findAll's builder as a function of presence alone. -/
def companyClauseOf (b1 b2 b3 : Bool) : List String :=
  (if b1 then ["num_employees >= $1"] else []) ++
  (if b2 then ["num_employees <= $" ++ toString ((if b1 then 1 else 0) + 1)] else []) ++
  (if b3 then
     ["name ILIKE $" ++ toString ((if b1 then 1 else 0) + (if b2 then 1 else 0) + 1)]
   else [])

/-- The clause texts of Job.findAll's builder as a function of presence alone; the equity
literal consumes no placeholder index. -/
def jobClauseOf (b1 b2 b3 : Bool) : List String :=
  (if b1 then ["salary >= $1"] else []) ++
  (if b2 then ["equity > 0"] else []) ++
  (if b3 then ["title ILIKE $" ++ toString ((if b1 then 1 else 0) + 1)] else [])

/-! ## Helper lemmas -/

theorem renderPieces_snd_length (ps : List Piece) : ∀ off : Nat,
    ((renderPieces ps off).2).length = countParams ps := by
  induction ps with
  | nil => intro off; rfl
  | cons p rest ih =>
      intro off
      cases p with
      | withParam f v => simp [renderPieces, countParams, ih]
      | literal s => simp [renderPieces, countParams, ih]

theorem piecesIndices_range (ps : List Piece) : ∀ off : Nat,
    piecesIndices ps off = List.range' (off + 1) (countParams ps) := by
  induction ps with
  | nil => intro off; rfl
  | cons p rest ih =>
      intro off
      cases p with
      | withParam f v =>
          simp only [piecesIndices, countParams, ih, List.range'_succ]
      | literal s => simp only [piecesIndices, countParams, ih]

theorem renderPieces_updatePieces (jsToSql : List (String × String)) :
    ∀ (d : List (String × Value)) (off : Nat),
      renderPieces (updatePieces jsToSql d) off =
        ((List.enumFrom off d).map
           (fun p => "\"" ++ resolveCol jsToSql p.2.1 ++ "\"=$" ++ toString (p.1 + 1)),
         d.map Prod.snd) := by
  intro d
  induction d with
  | nil => intro off; rfl
  | cons kv rest ih =>
      intro off
      have ih' := ih (off + 1)
      simp only [updatePieces, List.map_cons] at ih' ⊢
      simp only [renderPieces, List.enumFrom, List.map_cons]
      rw [ih']

theorem updateTokens_eq (jsToSql : List (String × String)) (d : List (String × Value)) :
    ((d.map Prod.fst).enum).map
        (fun p => "\"" ++ resolveCol jsToSql p.2 ++ "\"=$" ++ toString (p.1 + 1)) =
      (List.enumFrom 0 d).map
        (fun p => "\"" ++ resolveCol jsToSql p.2.1 ++ "\"=$" ++ toString (p.1 + 1)) := by
  rw [List.enum_map, List.map_map]
  rfl

/-- Characterization of sqlForPartialUpdate on a non-empty change set: it succeeds with
the comma-joined rendering of `updatePieces` starting at offset 0, and the values in
change-set order. -/
theorem sqlForPartialUpdate_eq_render (d : List (String × Value))
    (jsToSql : List (String × String)) (h : d ≠ []) :
    sqlForPartialUpdate d jsToSql =
      Except.ok (String.intercalate ", " (renderPieces (updatePieces jsToSql d) 0).1,
                 (renderPieces (updatePieces jsToSql d) 0).2) := by
  unfold sqlForPartialUpdate
  have hlen : ¬ ((d.map Prod.fst).length = 0) := by
    simpa [List.length_eq_zero] using h
  rw [if_neg hlen, renderPieces_updatePieces, updateTokens_eq]

theorem enumFrom_map_eq_zipWith {α β : Type} (g : Nat → α → β) :
    ∀ (l : List α) (off : Nat),
      (List.enumFrom off l).map (fun p => g (p.1 + 1) p.2) =
        List.zipWith g (List.range' (off + 1) l.length) l := by
  intro l
  induction l with
  | nil => intro off; rfl
  | cons a rest ih =>
      intro off
      simp only [List.enumFrom, List.map_cons, List.length_cons, List.range'_succ,
        List.zipWith_cons_cons, ih (off + 1)]

theorem companyFilterList_eq_render (minE maxE : Option Int) (name : Option String) :
    companyFilterList minE maxE name = renderPieces (companyPieces minE maxE name) 0 := by
  rcases name with _ | s
  · cases minE <;> cases maxE <;> rfl
  · by_cases hs : s = "" <;> cases minE <;> cases maxE <;>
      simp [companyFilterList, companyPieces, renderPieces, hs]

theorem jobFilterList_eq_render (minS : Option Int) (he : Bool) (t : Option String) :
    jobFilterList minS he t = renderPieces (jobPieces minS he t) 0 := by
  rcases t with _ | s
  · cases minS <;> cases he <;> rfl
  · by_cases hs : s = "" <;> cases minS <;> cases he <;>
      simp [jobFilterList, jobPieces, renderPieces, hs]

theorem companyFilterList_fst (minE maxE : Option Int) (name : Option String) :
    (companyFilterList minE maxE name).1 =
      companyClauseOf minE.isSome maxE.isSome (nameTruthy name) := by
  rcases name with _ | s
  · cases minE <;> cases maxE <;>
      simp [companyFilterList, companyClauseOf, nameTruthy] <;> decide
  · by_cases hs : s = "" <;> cases minE <;> cases maxE <;>
      simp [companyFilterList, companyClauseOf, nameTruthy, hs] <;> decide

theorem jobFilterList_fst (minS : Option Int) (he : Bool) (t : Option String) :
    (jobFilterList minS he t).1 = jobClauseOf minS.isSome he (nameTruthy t) := by
  rcases t with _ | s
  · cases minS <;> cases he <;>
      simp [jobFilterList, jobClauseOf, nameTruthy] <;> decide
  · by_cases hs : s = "" <;> cases minS <;> cases he <;>
      simp [jobFilterList, jobClauseOf, nameTruthy, hs] <;> decide

theorem alookup_setColumn_ne {r : List (String × Value)} {c col : String} (v : Value)
    (h : c ≠ col) : alookup (setColumn r c v) col = alookup r col := by
  induction r with
  | nil => rfl
  | cons kv rest ih =>
      rcases kv with ⟨k, v0⟩
      by_cases hk : k = c
      · have hkc : ¬ (k = col) := by rw [hk]; exact h
        simp only [setColumn, List.map_cons] at ih ⊢
        rw [if_pos hk]
        simp only [alookup]
        rw [if_neg hkc, if_neg hkc]
        exact ih
      · simp only [setColumn, List.map_cons] at ih ⊢
        rw [if_neg hk]
        simp only [alookup]
        by_cases hcol : k = col
        · rw [if_pos hcol, if_pos hcol]
        · rw [if_neg hcol, if_neg hcol]
          exact ih

theorem alookup_filter_ne (key : String) :
    ∀ l : List (String × Value),
      alookup (l.filter (fun kv => kv.1 != key)) key = none := by
  intro l
  induction l with
  | nil => rfl
  | cons kv rest ih =>
      by_cases hk : kv.1 = key
      · simp [List.filter, hk, ih]
      · simp only [List.filter]
        rw [show (kv.1 != key) = true by simpa using hk]
        simpa [alookup, hk] using ih

theorem jobFilterList_snd_equity (minS : Option Int) (t : Option String) :
    (jobFilterList minS true t).2 = (jobFilterList minS false t).2 := by
  rcases t with _ | s
  · cases minS <;> rfl
  · by_cases hs : s = "" <;> cases minS <;> simp [jobFilterList, hs]

theorem updateClause_eq (m : List (String × String)) (d : List (String × Value)) :
    (renderPieces (updatePieces m d) 0).1 =
      ((d.map Prod.fst).enum).map
        (fun p => "\"" ++ resolveCol m p.2 ++ "\"=$" ++ toString (p.1 + 1)) := by
  rw [renderPieces_updatePieces]
  exact (updateTokens_eq m d).symm

/-! ## Claim theorems -/

/-- C1: every clause produced by sqlForPartialUpdate or by the filter builders of
Company.findAll and Job.findAll is the rendering of a piece list whose placeholder indices
are assigned contiguously and increasingly starting at 1; the number of placeholder tokens
equals the length of the parameter list (the boolean equity literal contributes neither);
and no caller-supplied value occurs in the clause text: the clause depends only on the
change-set keys, respectively on which filters are present. -/
theorem builder_placeholder_invariants :
    (∀ (m : List (String × String)) (d : List (String × Value)), d ≠ [] →
        sqlForPartialUpdate d m =
          Except.ok (String.intercalate ", " (renderPieces (updatePieces m d) 0).1,
                     (renderPieces (updatePieces m d) 0).2)) ∧
    (∀ (minE maxE : Option Int) (name : Option String),
        companyFilterList minE maxE name = renderPieces (companyPieces minE maxE name) 0) ∧
    (∀ (minS : Option Int) (he : Bool) (t : Option String),
        jobFilterList minS he t = renderPieces (jobPieces minS he t) 0) ∧
    (∀ (ps : List Piece) (off : Nat), ((renderPieces ps off).2).length = countParams ps) ∧
    (∀ (ps : List Piece) (off : Nat),
        piecesIndices ps off = List.range' (off + 1) (countParams ps)) ∧
    (∀ (minS : Option Int) (t : Option String),
        (jobFilterList minS true t).2 = (jobFilterList minS false t).2) ∧
    (∀ (m : List (String × String)) (d1 d2 : List (String × Value)),
        d1.map Prod.fst = d2.map Prod.fst →
        (renderPieces (updatePieces m d1) 0).1 = (renderPieces (updatePieces m d2) 0).1) ∧
    (∀ (m1 x1 m2 x2 : Option Int) (n1 n2 : Option String),
        m1.isSome = m2.isSome → x1.isSome = x2.isSome → nameTruthy n1 = nameTruthy n2 →
        (companyFilterList m1 x1 n1).1 = (companyFilterList m2 x2 n2).1) ∧
    (∀ (s1 s2 : Option Int) (h1 h2 : Bool) (t1 t2 : Option String),
        s1.isSome = s2.isSome → h1 = h2 → nameTruthy t1 = nameTruthy t2 →
        (jobFilterList s1 h1 t1).1 = (jobFilterList s2 h2 t2).1) := by
  refine ⟨?_, companyFilterList_eq_render, jobFilterList_eq_render,
    renderPieces_snd_length, piecesIndices_range, jobFilterList_snd_equity, ?_, ?_, ?_⟩
  · intro m d h
    exact sqlForPartialUpdate_eq_render d m h
  · intro m d1 d2 hk
    rw [updateClause_eq, updateClause_eq, hk]
  · intro m1 x1 m2 x2 n1 n2 hm hx hn
    rw [companyFilterList_fst, companyFilterList_fst, hm, hx, hn]
  · intro s1 s2 h1 h2 t1 t2 hs hh ht
    rw [jobFilterList_fst, jobFilterList_fst, hs, hh, ht]

/-- C1 witness: the partial-update conjunct instantiated at a concrete change set. -/
theorem builder_placeholder_invariants_witness :
    sqlForPartialUpdate [("age", Value.vInt 27)] [] =
      Except.ok
        (String.intercalate ", " (renderPieces (updatePieces [] [("age", Value.vInt 27)]) 0).1,
         (renderPieces (updatePieces [] [("age", Value.vInt 27)]) 0).2) :=
  builder_placeholder_invariants.1 [] [("age", Value.vInt 27)] (by decide)

/-- C2 counterexample: with a field map that maps key "a" to the empty string, the claim
"each column is M's mapping of the key when present" demands the token to use the mapped
column (the empty string), but the code emits the key itself. -/
theorem mapped_empty_column_cex :
    sqlForPartialUpdate [("a", Value.vInt 1)] [("a", "")] =
      Except.ok ("\"a\"=$1", [Value.vInt 1]) ∧
    ("\"a\"=$1" : String) ≠ "\"\"=$1" := ⟨rfl, by decide⟩

/-- C2 (amended): for every non-empty change set, sqlForPartialUpdate returns the
comma-joined tokens of the form "col"=$i with indices 1..|C| paired positionally with the
keys in insertion order, and the values in the same order; the column is M's mapping when
present and truthy (non-empty), the key itself otherwise; the documented concrete scenario
holds. -/
theorem sqlForPartialUpdate_contract :
    (∀ (d : List (String × Value)) (m : List (String × String)), d ≠ [] →
        sqlForPartialUpdate d m =
          Except.ok
            (String.intercalate ", "
              (List.zipWith (fun i k => "\"" ++ resolveCol m k ++ "\"=$" ++ toString i)
                (List.range' 1 d.length) (d.map Prod.fst)),
             d.map Prod.snd)) ∧
    (∀ (m : List (String × String)) (k : String), alookup m k = none → resolveCol m k = k) ∧
    (∀ (m : List (String × String)) (k c : String), alookup m k = some c → c ≠ "" →
        resolveCol m k = c) ∧
    sqlForPartialUpdate [("firstName", Value.vStr "Joe"), ("age", Value.vInt 27)]
        [("firstName", "first_name")] =
      Except.ok ("\"first_name\"=$1, \"age\"=$2", [Value.vStr "Joe", Value.vInt 27]) := by
  refine ⟨?_, ?_, ?_, rfl⟩
  · intro d m h
    rw [sqlForPartialUpdate_eq_render d m h, renderPieces_updatePieces]
    have h2 : ((List.enumFrom 0 d).map
          (fun p => "\"" ++ resolveCol m p.2.1 ++ "\"=$" ++ toString (p.1 + 1))) =
        List.zipWith (fun i k => "\"" ++ resolveCol m k ++ "\"=$" ++ toString i)
          (List.range' 1 d.length) (d.map Prod.fst) := by
      have e1 := enumFrom_map_eq_zipWith
        (fun i (kv : String × Value) => "\"" ++ resolveCol m kv.1 ++ "\"=$" ++ toString i) d 0
      have e2 : List.zipWith (fun i k => "\"" ++ resolveCol m k ++ "\"=$" ++ toString i)
            (List.range' (0 + 1) d.length) (d.map Prod.fst) =
          List.zipWith
            (fun i (kv : String × Value) => "\"" ++ resolveCol m kv.1 ++ "\"=$" ++ toString i)
            (List.range' (0 + 1) d.length) d := by
        rw [List.zipWith_map_right]
      exact e1.trans e2.symm
    rw [h2]
  · intro m k h
    simp [resolveCol, h]
  · intro m k c h hc
    simp [resolveCol, h, hc]

/-- C2 witness: the first conjunct instantiated at the documented concrete scenario. -/
theorem sqlForPartialUpdate_contract_witness :
    sqlForPartialUpdate [("firstName", Value.vStr "Joe"), ("age", Value.vInt 27)]
        [("firstName", "first_name")] =
      Except.ok
        (String.intercalate ", "
          (List.zipWith
            (fun i k => "\"" ++ resolveCol [("firstName", "first_name")] k ++ "\"=$" ++ toString i)
            (List.range' 1
              ([("firstName", Value.vStr "Joe"), ("age", Value.vInt 27)] :
                List (String × Value)).length)
            (([("firstName", Value.vStr "Joe"), ("age", Value.vInt 27)] :
                List (String × Value)).map Prod.fst)),
         ([("firstName", Value.vStr "Joe"), ("age", Value.vInt 27)] :
            List (String × Value)).map Prod.snd) :=
  sqlForPartialUpdate_contract.1 [("firstName", Value.vStr "Joe"), ("age", Value.vInt 27)]
    [("firstName", "first_name")] (by decide)

/-- C3: sqlForPartialUpdate on an empty change set fails with BadRequestError for every
field map; the check precedes any clause construction. -/
theorem sqlForPartialUpdate_empty_fails (jsToSql : List (String × String)) :
    sqlForPartialUpdate [] jsToSql = Except.error (JoblyError.badRequest "No data") := rfl

/-- C4: evaluation at the failing input.  With no declared filter present, Company.findAll
and Job.findAll omit the WHERE keyword entirely (a valid match-all query with no
parameters), but Job.searchAll interpolates the empty clause after an unconditional WHERE,
yielding the malformed text `... FROM jobs WHERE  ORDER BY id`. -/
theorem empty_filter_query_texts :
    jobSearchAll [] =
      ([],
       ("SELECT id, title, salary, equity, company_handle AS \"companyHandle\" FROM jobs WHERE  ORDER BY id",
        [])) ∧
    companyFindAll none none none = Except.ok (companyBaseQuery ++ " ORDER BY name", []) ∧
    jobFindAll none false none = (jobBaseQuery ++ " ORDER BY title", []) :=
  ⟨by decide, rfl, rfl⟩

/-- C5: whenever both employee bounds are supplied with minimum strictly greater than
maximum, Company.findAll fails with BadRequestError; no clause text and no query are
produced. -/
theorem company_range_validation (mn mx : Int) (name : Option String) (h : mn > mx) :
    companyFindAll (some mn) (some mx) name =
      Except.error (JoblyError.badRequest "Minimum employees cannot exceed maximum employees") := by
  unfold companyFindAll
  simp [h]

/-- C5 witness: the documented concrete scenario minEmployees 2, maxEmployees 1. -/
theorem company_range_validation_witness :
    companyFindAll (some 2) (some 1) none =
      Except.error (JoblyError.badRequest "Minimum employees cannot exceed maximum employees") :=
  company_range_validation 2 1 none (by decide)

/-- C6: two filter-spec objects that are equal as key-value maps (regardless of insertion
order) produce identical query text and identical ordered parameter lists in both
Company.findAll and Job.findAll, since each destructures a fixed set of declared keys. -/
theorem filter_order_independence (s1 s2 : List (String × Value))
    (h : ∀ k, alookup s1 k = alookup s2 k) :
    companyFindAllSpec s1 = companyFindAllSpec s2 ∧ jobFindAllSpec s1 = jobFindAllSpec s2 := by
  unfold companyFindAllSpec jobFindAllSpec
  rw [h "minEmployees", h "maxEmployees", h "name", h "minSalary", h "hasEquity", h "title"]
  exact ⟨rfl, rfl⟩

/-- C6 witness: a two-key filter spec populated in both insertion orders. -/
theorem filter_order_independence_witness :
    companyFindAllSpec [("minEmployees", Value.vInt 1), ("name", Value.vStr "net")] =
        companyFindAllSpec [("name", Value.vStr "net"), ("minEmployees", Value.vInt 1)] ∧
    jobFindAllSpec [("minEmployees", Value.vInt 1), ("name", Value.vStr "net")] =
        jobFindAllSpec [("name", Value.vStr "net"), ("minEmployees", Value.vInt 1)] :=
  filter_order_independence _ _ (by
    intro k
    by_cases h1 : "minEmployees" = k <;> by_cases h2 : "name" = k <;>
      simp [alookup, h1, h2]
    exact absurd (h1.trans h2.symm) (by decide))

/-- C7 counterexample: an authenticated non-admin caller targeting another user's resource
receives the forbidden signal from ensureAdminOrSelf, not the unauthorized signal the
claim demands for every gated operation. -/
theorem adminOrSelf_signal_cex :
    ensureAdminOrSelf (some ⟨"test", false⟩) "wrong" = some JoblyError.forbidden ∧
    some JoblyError.forbidden ≠ some JoblyError.unauthorized := ⟨by decide, by decide⟩

/-- C7 (amended): an authenticated caller whose claim fails the predicate receives the
unauthorized signal from ensureAdmin but the forbidden signal from ensureAdminOrSelf;
absence of a claim yields unauthorized from both; passing the predicate yields success. -/
theorem gate_signals (u : UserClaim) (target : String) :
    (u.isAdmin = false → ensureAdmin (some u) = some JoblyError.unauthorized) ∧
    (u.isAdmin = false → u.username ≠ target →
        ensureAdminOrSelf (some u) target = some JoblyError.forbidden) ∧
    ensureAdmin none = some JoblyError.unauthorized ∧
    ensureAdminOrSelf none target = some JoblyError.unauthorized ∧
    (u.isAdmin = true →
        ensureAdmin (some u) = none ∧ ensureAdminOrSelf (some u) target = none) ∧
    (u.username = target → ensureAdminOrSelf (some u) target = none) := by
  refine ⟨?_, ?_, rfl, rfl, ?_, ?_⟩
  · intro h
    simp [ensureAdmin, h]
  · intro h hne
    simp [ensureAdminOrSelf, h, hne]
  · intro h
    exact ⟨by simp [ensureAdmin, h], by simp [ensureAdminOrSelf, h]⟩
  · intro h
    simp [ensureAdminOrSelf, h]

/-- C7 witness: the amended signals at a concrete non-admin caller. -/
theorem gate_signals_witness :
    ensureAdmin (some ⟨"test", false⟩) = some JoblyError.unauthorized ∧
    ensureAdminOrSelf (some ⟨"test", false⟩) "wrong" = some JoblyError.forbidden :=
  ⟨(gate_signals ⟨"test", false⟩ "wrong").1 rfl,
   (gate_signals ⟨"test", false⟩ "wrong").2.1 rfl (by decide)⟩

/-- C8: executing the update built by sqlForPartialUpdate changes only the columns named
by the change-set keys: every other column reads back unchanged; the builder supplies the
change-set values positionally; and the documented round trip on the row a=1, b=2 under
the change a:=5 yields a=5, b=2. -/
theorem update_frame_effect :
    (∀ (row data : List (String × Value)) (col : String),
        col ∉ data.map Prod.fst →
        alookup (execPartialUpdate row data []) col = alookup row col) ∧
    (∀ (d : List (String × Value)) (m : List (String × String)), d ≠ [] →
        ∃ clause, sqlForPartialUpdate d m = Except.ok (clause, d.map Prod.snd)) ∧
    execPartialUpdate [("a", Value.vInt 1), ("b", Value.vInt 2)] [("a", Value.vInt 5)] [] =
      [("a", Value.vInt 5), ("b", Value.vInt 2)] := by
  refine ⟨?_, ?_, by decide⟩
  · intro row data
    induction data generalizing row with
    | nil => intro col _; rfl
    | cons kv rest ih =>
        intro col h
        simp only [List.map_cons, List.mem_cons, not_or] at h
        obtain ⟨h1, h2⟩ := h
        have step : execPartialUpdate row (kv :: rest) [] =
            execPartialUpdate (setColumn row kv.1 kv.2) rest [] := rfl
        rw [step, ih _ _ (by simpa using h2), alookup_setColumn_ne kv.2 (Ne.symm h1)]
  · intro d m h
    have hr := sqlForPartialUpdate_eq_render d m h
    rw [renderPieces_updatePieces] at hr
    exact ⟨_, hr⟩

/-- C8 witness: the untouched column b of the documented round trip, read back through
the frame conjunct. -/
theorem update_frame_effect_witness :
    alookup
        (execPartialUpdate [("a", Value.vInt 1), ("b", Value.vInt 2)] [("a", Value.vInt 5)] [])
        "b" =
      alookup [("a", Value.vInt 1), ("b", Value.vInt 2)] "b" :=
  update_frame_effect.1 [("a", Value.vInt 1), ("b", Value.vInt 2)] [("a", Value.vInt 5)] "b"
    (by decide)

/-- C9: Job.searchAll returns the caller's fields object with the hasEquity key
unconditionally removed: the surviving object is exactly the input filtered of that key,
so a lookup of hasEquity after the call yields undefined, for every input map. -/
theorem jobSearchAll_deletes_hasEquity (fields : List (String × Value)) :
    (jobSearchAll fields).1 = fields.filter (fun kv => kv.1 != "hasEquity") ∧
    alookup (jobSearchAll fields).1 "hasEquity" = none := by
  refine ⟨rfl, ?_⟩
  show alookup (fields.filter (fun kv => kv.1 != "hasEquity")) "hasEquity" = none
  exact alookup_filter_ne "hasEquity" fields

/-- C10: the column-name fallback of sqlForPartialUpdate fires not only for absent keys
but for any falsy mapped value: a key mapped to the empty string resolves to the key
itself, and the emitted assignment token uses the logical key as the column name. -/
theorem falsy_fieldmap_fallback :
    (∀ (m : List (String × String)) (k : String), alookup m k = some "" →
        resolveCol m k = k) ∧
    (∀ (k : String) (v : Value) (m : List (String × String)), alookup m k = some "" →
        sqlForPartialUpdate [(k, v)] m = Except.ok ("\"" ++ k ++ "\"=$1", [v])) := by
  constructor
  · intro m k h
    simp [resolveCol, h]
  · intro k v m h
    have hr : resolveCol m k = k := by simp [resolveCol, h]
    have htok : ("\"" ++ k ++ "\"=$" ++ toString (0 + 1) : String) = "\"" ++ k ++ "\"=$1" := by
      rw [String.append_assoc]
      congr 1
    rw [sqlForPartialUpdate_eq_render [(k, v)] m (by simp), renderPieces_updatePieces]
    simp only [List.enumFrom, List.map_cons, List.map_nil, hr]
    rw [show (String.intercalate ", " ["\"" ++ k ++ "\"=$" ++ toString (0 + 1)]) =
        "\"" ++ k ++ "\"=$" ++ toString (0 + 1) from rfl, htok]

/-- C10 witness: a concrete key mapped to the empty string. -/
theorem falsy_fieldmap_fallback_witness :
    sqlForPartialUpdate [("firstName", Value.vStr "Joe")] [("firstName", "")] =
      Except.ok ("\"" ++ "firstName" ++ "\"=$1", [Value.vStr "Joe"]) :=
  falsy_fieldmap_fallback.2 "firstName" (Value.vStr "Joe") [("firstName", "")] (by decide)
